import Mathlib

/-!
Shallow embedding of the google-calendar-streamable-mcp-server sources:
the OAuth token-endpoint input parsing (`parseTokenInput`, `buildTokenInput`),
the MCP security middleware (`createMcpSecurityMiddleware`), the discovery
metadata handlers, and the MCP session/transport route handlers
(`buildMcpRoutes`).  JavaScript strings are Lean `String`s, `URLSearchParams`
and `Map` are association lists, `undefined`/`null` are `Option`, and
JavaScript truthiness on strings/options is made explicit.
-/

namespace GcalMcp

/-! ### URLSearchParams and the token endpoint (src/unnamed/part_002, lines 38-78) -/

/-- Association-list model of `URLSearchParams`; `spGet` is
`URLSearchParams.get`, returning the first value for the key (JS returns
`null`, modelled as `none`, when the key is absent). -/
def spGet : List (String × String) → String → Option String
  | [], _ => none
  | (k, v) :: rest, key => if k = key then some v else spGet rest key

/-- JavaScript falsiness of `form.get(k)`: `null` (absent) or the empty
string.  Mirrors the `!refreshToken` / `!code || !codeVerifier` checks. -/
def isFalsy : Option String → Bool
  | none => true
  | some s => s == ""

/-- Result type of `buildTokenInput`: the `TokenInput` tagged union of
src/unnamed/part_002 together with its `{ error: string }` escape. -/
inductive TokenInput where
  | refreshTokenGrant (refreshToken : String)
  | authorizationCodeGrant (code : String) (codeVerifier : String)
  | errorResult (e : String)
deriving DecidableEq, Repr

/-- Embedding of `buildTokenInput` (src/unnamed/part_002 lines 57-78):
dispatch on `grant_type`, requiring a truthy `refresh_token` for the
refresh grant and truthy `code` and `code_verifier` for the
authorization-code grant. -/
def buildTokenInput (form : List (String × String)) : TokenInput :=
  let grant := spGet form "grant_type"
  if grant = some "refresh_token" then
    let refreshToken := spGet form "refresh_token"
    if isFalsy refreshToken then TokenInput.errorResult "missing_refresh_token"
    else TokenInput.refreshTokenGrant (refreshToken.getD "")
  else if grant = some "authorization_code" then
    let code := spGet form "code"
    let codeVerifier := spGet form "code_verifier"
    if isFalsy code || isFalsy codeVerifier then
      TokenInput.errorResult "missing_code_or_verifier"
    else TokenInput.authorizationCodeGrant (code.getD "") (codeVerifier.getD "")
  else TokenInput.errorResult "unsupported_grant_type"

/-- Leading-match test on character lists: does the list start with the
pattern. -/
def charsLeadWith : List Char → List Char → Bool
  | [], _ => true
  | _ :: _, [] => false
  | p :: ps, c :: cs => p = c && charsLeadWith ps cs

/-- Occurrence test on character lists: does the list contain the pattern
as a contiguous run. -/
def charsContain (pat : List Char) : List Char → Bool
  | [] => charsLeadWith pat []
  | c :: rest => charsLeadWith pat (c :: rest) || charsContain pat rest

/-- Substring test mirroring JavaScript `String.prototype.includes`. -/
def strIncludes (s pat : String) : Bool :=
  charsContain pat.data s.data

/-- Embedding of `parseTokenInput` (src/unnamed/part_002 lines 41-52).
`parseForm` models the web-platform `new URLSearchParams(text)` constructor
and `jsonParse` models `request.json()` restricted to string-valued objects
(both are platform builtins external to this repository, so they are
parameters).  A JSON parse failure is caught (`.catch(() => ({}))`) and
`new URLSearchParams({})` of the empty object is the empty parameter list,
so the fallback branch is total: no exception crosses this boundary. -/
def parseTokenInput (parseForm : String → List (String × String))
    (jsonParse : String → Option (List (String × String)))
    (contentType : Option String) (body : String) : List (String × String) :=
  if strIncludes (contentType.getD "") "application/x-www-form-urlencoded" then
    parseForm body
  else
    match jsonParse body with
    | some obj => obj
    | none => []

/-! ### URL pieces (web-platform `URL`, external; only origin/host fields used) -/

/-- Parsed pieces of a URL as exposed by the web `URL` object: `protocol`
includes the trailing colon, `port` is the empty string when the URL has no
explicit port.  `new URL(...)` parsing itself is a platform builtin, so
configuration URLs are carried in this already-parsed form. -/
structure UrlParts where
  protocol : String
  hostname : String
  port : String
deriving DecidableEq, Repr

/-- JS `URL.host`: hostname plus `:port` when an explicit port is present. -/
def UrlParts.host (u : UrlParts) : String :=
  if u.port = "" then u.hostname else u.hostname ++ ":" ++ u.port

/-- JS `URL.origin`: protocol, `//`, host (the `port` field of `URL` is
already empty for scheme-default ports). -/
def UrlParts.origin (u : UrlParts) : String :=
  u.protocol ++ "//" ++ u.host

/-! ### Configuration (shared/config/env.js, fields used by the embedded code) -/

/-- JavaScript truthiness of an optional string (a header value or a
configuration field): present and non-empty. -/
def strTruthy : Option String → Bool
  | none => false
  | some s => s != ""

/-- Configured `AUTH_RESOURCE_URI` value: the raw configured string
together with its `new URL(...)` parse (URL parsing is a web-platform
builtin, so each configured URI is carried with its parse; the raw string
may include a path the parsed origin drops). -/
structure ResourceUri where
  raw : String
  parsed : UrlParts
deriving DecidableEq, Repr

/-- Fields of `UnifiedConfig` consumed by the embedded handlers.
`AUTH_RESOURCE_URI` is carried as `Option ResourceUri`: `none` models an
unset/empty (falsy) value. -/
structure UnifiedConfig where
  AUTH_ENABLED : Bool
  AUTH_REQUIRE_RS : Bool
  AUTH_ALLOW_DIRECT_BEARER : Bool
  AUTH_STRATEGY : String
  AUTH_RESOURCE_URI : Option ResourceUri
  OAUTH_SCOPES : String
  OAUTH_AUTHORIZATION_URL : String
  OAUTH_TOKEN_URL : String
  PORT : Nat
  NODE_ENV : String
  MCP_PROTOCOL_VERSION : String
deriving DecidableEq, Repr

/-! ### Bearer extraction (src/unnamed/part_000, lines 46-49) -/

/-- JavaScript `str.split(' ')` on the character-list level: split at every
single space, keeping empty pieces, with `[""]` for the empty input. -/
def splitOnSpace : List Char → List (List Char)
  | [] => [[]]
  | c :: rest =>
    let r := splitOnSpace rest
    if c = ' ' then [] :: r
    else (c :: r.headD []) :: r.tail

/-- The scheme part of an `Authorization` header value: element 0 of
`auth.split(' ', 2)` (element 0 of the full split). -/
def authScheme (auth : String) : List Char :=
  (splitOnSpace auth.data).headD []

/-- The token part of an `Authorization` header value: element 1 of
`auth.split(' ', 2)` (element 1 of the full split), with JS `undefined`
collapsed to the empty list exactly as `(rsToken || '')` does. -/
def authToken (auth : String) : List Char :=
  ((splitOnSpace auth.data).drop 1).headD []

/-- Character-list trim, as JS `String.prototype.trim`: drop whitespace from
both ends. -/
def trimChars (l : List Char) : List Char :=
  ((l.dropWhile Char.isWhitespace).reverse.dropWhile Char.isWhitespace).reverse

/-- Embedding of part_000 lines 47-49: `auth.split(' ', 2)` destructured
into scheme and token; the bearer token is the trimmed token when the
scheme is truthy (non-empty) and case-insensitively `bearer`, else the
empty string. -/
def extractBearerChars (auth : String) : List Char :=
  if authScheme auth ≠ [] ∧ (authScheme auth).map Char.toLower = "bearer".data then
    trimChars (authToken auth)
  else []

/-- String-level bearer extraction used by the middleware embedding. -/
def extractBearer (auth : String) : String :=
  String.mk (extractBearerChars auth)

/-! ### Credential store and auth context (src/unnamed/part_000, lines 51-106) -/

/-- Provider credential record stored in the token store. -/
structure ProviderCredential where
  access_token : String
  refresh_token : Option String
  expires_at : Option Nat
  scopes : Option (List String)
deriving DecidableEq, Repr

/-- Record returned by `store.getByRsAccess`; its `provider` field may be
absent (`record?.provider`). -/
structure TokenRecord where
  provider : Option ProviderCredential
deriving DecidableEq, Repr

/-- Outcome of `await store.getByRsAccess(bearer)`: a resolved optional
record, or a thrown error (the rejection of the promise). -/
inductive StoreResult where
  | ok (record : Option TokenRecord)
  | err (message : String)
deriving DecidableEq, Repr

/-- Single-header record mirroring the `{ authorization: ... }` objects of
the middleware. -/
structure AuthHeaders where
  authorization : String
deriving DecidableEq, Repr

/-- The `authContext` object attached to the Hono context (part_000
lines 60-77). -/
structure AuthContext where
  strategy : String
  authHeaders : AuthHeaders
  resolvedHeaders : AuthHeaders
  providerToken : String
  provider : ProviderCredential
  rsToken : String
deriving DecidableEq, Repr

/-- Inbound request pieces read by the security middleware. -/
structure GateRequest where
  authorization : Option String
  mcpSessionId : Option String
  url : UrlParts
deriving DecidableEq, Repr

/-- Modelled from the spec: `buildUnauthorizedChallenge` lives in
`shared/mcp/security.js`, which is absent from src/.  Spec section 3:
a Challenge is status 401 with a `WWW-Authenticate` header advertising the
discovery-metadata location at the given origin and the session binding,
and a JSON-RPC-shaped error body.  The model keeps its determinants
(origin, sid) and the 401 status. -/
structure Challenge where
  status : Nat
  origin : String
  sid : String
deriving DecidableEq, Repr

/-- Modelled from the spec: constructor for the 401 Challenge (see
`Challenge`). -/
def buildUnauthorizedChallenge (origin sid : String) : Challenge :=
  { status := 401, origin := origin, sid := sid }

/-- Origin advertised in a challenge (part_000 lines 35-37 and 84-86):
prefer the configured `AUTH_RESOURCE_URI` origin, else the request URL
origin. -/
def challengeOrigin (config : UnifiedConfig) (req : GateRequest) : String :=
  match config.AUTH_RESOURCE_URI with
  | some u => u.parsed.origin
  | none => req.url.origin

/-- Result of the security middleware: a 401 challenge response (with the
`Mcp-Session-Id` header it sets) or fall-through to the next handler,
optionally with an attached `authContext`. -/
inductive GateResult where
  | challengeResp (status : Nat) (mcpSessionId : String) (origin : String)
  | next (authContext : Option AuthContext)
deriving DecidableEq, Repr

/-- Embedding of the body of `createMcpSecurityMiddleware` (part_000
lines 24-106), after `validateOrigin` / `validateProtocolVersion` succeed
(those live in `shared/mcp/security.js`, outside src/, and the claims all
concern the authentication region).  `store` models
`store.getByRsAccess`; `freshSid` models the `randomUUID()` draw.  The
challenge branch guard is the source's `if (!auth)` falsy test, so it
fires both on an absent `Authorization` header and on a present
empty-string one.  The `try` around the store lookup (lines 52-102): a
thrown lookup falls out of the whole branching and reaches
`return next()`, attaching nothing.  Note the no-Authorization branch
treats an empty `Mcp-Session-Id` header as absent (`if (!sid)`), while
the not-found branch keeps it (`?? randomUUID()`). -/
def mcpSecurityMiddleware (config : UnifiedConfig) (req : GateRequest)
    (store : String → StoreResult) (freshSid : String) : GateResult :=
  if config.AUTH_ENABLED then
    if strTruthy req.authorization = false then
      let sid :=
        match req.mcpSessionId with
        | some s => if s = "" then freshSid else s
        | none => freshSid
      let ch := buildUnauthorizedChallenge (challengeOrigin config req) sid
      GateResult.challengeResp ch.status sid ch.origin
    else
      let auth := req.authorization.getD ""
      let bearer := extractBearer auth
      if bearer ≠ "" then
        match store bearer with
        | StoreResult.err _ => GateResult.next none
        | StoreResult.ok record =>
          match record.bind TokenRecord.provider with
          | some provider =>
            GateResult.next (some
              { strategy := config.AUTH_STRATEGY
                authHeaders := { authorization := auth }
                resolvedHeaders :=
                  { authorization := "Bearer " ++ provider.access_token }
                providerToken := provider.access_token
                provider := provider
                rsToken := bearer })
          | none =>
            if config.AUTH_REQUIRE_RS && !config.AUTH_ALLOW_DIRECT_BEARER then
              let sid := req.mcpSessionId.getD freshSid
              let ch := buildUnauthorizedChallenge (challengeOrigin config req) sid
              GateResult.challengeResp ch.status sid ch.origin
            else GateResult.next none
      else GateResult.next none
  else GateResult.next none

/-! ### Session transport registry and MCP routes (src/unnamed/part_002, lines 146-399) -/

/-- Membership in a list of transport identities, modelling
`WeakSet.has` / the registry lookups (written out recursively so the
embedding is self-contained). -/
def listHas : List Nat → Nat → Bool
  | [], _ => false
  | x :: rest, t => if x = t then true else listHas rest t

/-- Number of occurrences of a transport id in the trace of
`server.connect` invocations. -/
def countOcc : List Nat → Nat → Nat
  | [], _ => 0
  | x :: rest, t => (if x = t then 1 else 0) + countOcc rest t

/-- Lookup in the `transports : Map<string, Transport>` registry
(transports are identified by a numeric identity). -/
def mapGet : List (String × Nat) → String → Option Nat
  | [], _ => none
  | (k, v) :: rest, key => if k = key then some v else mapGet rest key

/-- JS `Map.delete`: remove the entry for the key. -/
def mapDelete : List (String × Nat) → String → List (String × Nat)
  | [], _ => []
  | (k, v) :: rest, key =>
    if k = key then mapDelete rest key else (k, v) :: mapDelete rest key

/-- JS `Map.set`: bind the key to the value (keys stay unique). -/
def mapSet (m : List (String × Nat)) (key : String) (v : Nat) :
    List (String × Nat) :=
  (key, v) :: mapDelete m key

/-- State of `buildMcpRoutes`: the session-id → transport registry, the
`connectedTransports` guard set, the trace of `server.connect`
invocations, the closed transports, and a counter allocating fresh
transport identities for `new StreamableHTTPServerTransport(...)`. -/
structure McpState where
  transports : List (String × Nat)
  connected : List Nat
  connects : List Nat
  closed : List Nat
  nextTransportId : Nat
deriving DecidableEq, Repr

/-- Embedding of `ensureConnected` (part_002 lines 162-169): connect the
transport to the server only if it is not in the guard set, then record
it. -/
def ensureConnected (st : McpState) (t : Nat) : McpState :=
  if listHas st.connected t then st
  else { st with connects := st.connects ++ [t], connected := st.connected ++ [t] }

/-- Responses produced by the MCP route handlers: a JSON-RPC error
envelope with an HTTP status, a plain-text error with a status, or the
dispatch of the request to a transport via `transport.handleRequest`. -/
inductive McpResponse where
  | jsonError (status : Nat) (code : Int) (message : String)
  | textError (status : Nat) (message : String)
  | dispatched (transport : Nat)
deriving DecidableEq, Repr

/-- Embedding of the GET handler (part_002 lines 292-342): falsy session
header gives the 405 JSON-RPC -32000 error; an unknown session id gives
404 `Invalid session`; otherwise connect-if-needed and dispatch to the
registered transport. -/
def handleGet (st : McpState) (sessionIdHeader : Option String) :
    McpResponse × McpState :=
  if strTruthy sessionIdHeader = false then
    (McpResponse.jsonError 405 (-32000) "Method not allowed - no session", st)
  else
    let sid := sessionIdHeader.getD ""
    match mapGet st.transports sid with
    | none => (McpResponse.textError 404 "Invalid session", st)
    | some t => (McpResponse.dispatched t, ensureConnected st t)

/-- Embedding of the DELETE handler (part_002 lines 344-396): same
checks as GET; on success the request is dispatched to the transport,
then the session id is removed from the registry and the transport is
closed. -/
def handleDelete (st : McpState) (sessionIdHeader : Option String) :
    McpResponse × McpState :=
  if strTruthy sessionIdHeader = false then
    (McpResponse.jsonError 405 (-32000) "Method not allowed - no session", st)
  else
    let sid := sessionIdHeader.getD ""
    match mapGet st.transports sid with
    | none => (McpResponse.textError 404 "Invalid session", st)
    | some t =>
      let st1 := ensureConnected st t
      (McpResponse.dispatched t,
        { st1 with
            transports := mapDelete st1.transports sid
            closed := st1.closed ++ [t] })

/-- Embedding of the POST handler (part_002 lines 171-290).  For an
initialize request the planned session id reuses a truthy header else the
fresh `randomUUID()`; a truthy header is looked up in the registry and a
missing transport is freshly constructed; the handler connects the
transport and dispatches the request to it unconditionally — it never
returns the 405/404 errors of the GET/DELETE handlers.  The SDK transport
fires `onsessioninitialized` during `handleRequest` of an initialize
request, registering the planned session id (the callback is only
installed on freshly created transports). -/
def handlePost (st : McpState) (sessionIdHeader : Option String)
    (isInit : Bool) (freshSid : String) : McpResponse × McpState :=
  let plannedSid : Option String :=
    if isInit then
      some (if strTruthy sessionIdHeader then sessionIdHeader.getD "" else freshSid)
    else none
  let existing :=
    if strTruthy sessionIdHeader then mapGet st.transports (sessionIdHeader.getD "")
    else none
  match existing with
  | some t => (McpResponse.dispatched t, ensureConnected st t)
  | none =>
    let t := st.nextTransportId
    let st1 := ensureConnected { st with nextTransportId := st.nextTransportId + 1 } t
    let st2 :=
      match plannedSid with
      | some sid => { st1 with transports := mapSet st1.transports sid t }
      | none => st1
    (McpResponse.dispatched t, st2)

/-! ### Discovery metadata (src/unnamed/part_001 and src/http/auth-app.ts) -/

/-- Modelled from the spec: `buildAuthorizationServerMetadata` lives in
`shared/oauth/discovery.js`, absent from src/.  Spec section 6: the
authorization-server metadata document advertises the issuer and the
authorize/token/revoke endpoints together with the supported scopes; both
call sites in src/ pass the endpoints explicitly as overrides. -/
structure AuthServerMetadata where
  issuer : String
  authorization_endpoint : String
  token_endpoint : String
  revocation_endpoint : String
  scopes_supported : List String
deriving DecidableEq, Repr

/-- Endpoint overrides handed to `buildAuthorizationServerMetadata` by its
callers. -/
structure EndpointOverrides where
  authorizationEndpoint : String
  tokenEndpoint : String
  revocationEndpoint : String
deriving DecidableEq, Repr

/-- Modelled from the spec: see `AuthServerMetadata`. -/
def buildAuthorizationServerMetadata (baseUrl : String) (scopes : List String)
    (o : EndpointOverrides) : AuthServerMetadata :=
  { issuer := baseUrl
    authorization_endpoint := o.authorizationEndpoint
    token_endpoint := o.tokenEndpoint
    revocation_endpoint := o.revocationEndpoint
    scopes_supported := scopes }

/-- Scheme-default port used by `here.port || (protocol === 'https:' ? 443 : 80)`. -/
def defaultPortNum (protocol : String) : Nat :=
  if protocol = "https:" then 443 else 80

/-- The `Number(url.port || default) + 1` computation shared by the
adjacent-port strategies; `URL.port` is digits-only when non-empty, so
`Number` is modelled by `String.toNat?`. -/
def urlAuthPort (u : UrlParts) : Nat :=
  (if u.port = "" then defaultPortNum u.protocol else u.port.toNat?.getD 0) + 1

/-- Scope splitting of part_001 line 28:
`OAUTH_SCOPES.split(/\s+/).map(trim).filter(Boolean)` (after the final
filter, splitting on runs of whitespace and on single whitespace
characters coincide). -/
def splitScopes (s : String) : List String :=
  ((s.split Char.isWhitespace).map String.trim).filter (fun x => x ≠ "")

/-- Scope splitting of auth-app.ts line 36: `OAUTH_SCOPES.split(' ').filter(Boolean)`. -/
def splitScopesSpace (s : String) : List String :=
  (s.splitOn " ").filter (fun x => x ≠ "")

/-- Discovery strategy record (part_001 lines 10-14). -/
structure DiscoveryStrategy where
  resolveAuthBaseUrl : UrlParts → UnifiedConfig → String
  resolveAuthorizationServerUrl : UrlParts → UnifiedConfig → String
  resolveResourceBaseUrl : UrlParts → UnifiedConfig → String

/-- Embedding of `workerDiscoveryStrategy` (part_001 lines 54-59). -/
def workerDiscoveryStrategy : DiscoveryStrategy :=
  { resolveAuthBaseUrl := fun requestUrl _ => requestUrl.origin
    resolveAuthorizationServerUrl := fun requestUrl _ =>
      requestUrl.origin ++ "/.well-known/oauth-authorization-server"
    resolveResourceBaseUrl := fun requestUrl _ => requestUrl.origin ++ "/mcp" }

/-- Base-URL resolution of `nodeDiscoveryStrategy` (part_001 lines 62-71):
derive from `AUTH_RESOURCE_URI` (same scheme/host, port+1) when set, else
from the request URL host and `PORT + 1`. -/
def nodeResolveAuthBaseUrl (requestUrl : UrlParts) (config : UnifiedConfig) :
    String :=
  match config.AUTH_RESOURCE_URI with
  | some resourceUri =>
    resourceUri.parsed.protocol ++ "//" ++ resourceUri.parsed.hostname ++ ":"
      ++ toString (urlAuthPort resourceUri.parsed)
  | none =>
    requestUrl.protocol ++ "//" ++ requestUrl.hostname ++ ":"
      ++ toString (config.PORT + 1)

/-- Embedding of `nodeDiscoveryStrategy` (part_001 lines 61-84). -/
def nodeDiscoveryStrategy : DiscoveryStrategy :=
  { resolveAuthBaseUrl := nodeResolveAuthBaseUrl
    resolveAuthorizationServerUrl := fun requestUrl config =>
      nodeResolveAuthBaseUrl requestUrl config
        ++ "/.well-known/oauth-authorization-server"
    resolveResourceBaseUrl := fun requestUrl config =>
      match config.AUTH_RESOURCE_URI with
      | some u => u.raw
      | none => requestUrl.protocol ++ "//" ++ requestUrl.host ++ "/mcp" }

/-- Embedding of `createDiscoveryHandlers(...).authorizationMetadata`
(part_001 lines 33-43): resolve the base URL through the strategy and
advertise the proxy endpoints `baseUrl` + `/authorize`, `/token`,
`/revoke` as overrides. -/
def authorizationMetadata (config : UnifiedConfig) (strategy : DiscoveryStrategy)
    (requestUrl : UrlParts) : AuthServerMetadata :=
  let baseUrl := strategy.resolveAuthBaseUrl requestUrl config
  buildAuthorizationServerMetadata baseUrl (splitScopes config.OAUTH_SCOPES)
    { authorizationEndpoint := baseUrl ++ "/authorize"
      tokenEndpoint := baseUrl ++ "/token"
      revocationEndpoint := baseUrl ++ "/revoke" }

/-- Embedding of the discovery handler of `buildAuthApp`
(src/src/http/auth-app.ts lines 27-46): compute the auth-server base
(adjacent port when `AUTH_RESOURCE_URI` is set, else the request origin)
and advertise the proxy endpoints as overrides. -/
def authAppBase (config : UnifiedConfig) (requestUrl : UrlParts) : String :=
  let here :=
    match config.AUTH_RESOURCE_URI with
    | some u => u.parsed
    | none => requestUrl
  let authPort :=
    (if here.port = "" then defaultPortNum here.protocol
     else here.port.toNat?.getD 0) + 1
  match config.AUTH_RESOURCE_URI with
  | some _ => here.protocol ++ "//" ++ here.hostname ++ ":" ++ toString authPort
  | none => here.protocol ++ "//" ++ here.host

/-- Endpoint-advertising step of the `buildAuthApp` discovery handler. -/
def authAppMetadata (config : UnifiedConfig) (requestUrl : UrlParts) :
    AuthServerMetadata :=
  let base := authAppBase config requestUrl
  buildAuthorizationServerMetadata base (splitScopesSpace config.OAUTH_SCOPES)
    { authorizationEndpoint := base ++ "/authorize"
      tokenEndpoint := base ++ "/token"
      revocationEndpoint := base ++ "/revoke" }

/-! ### Helper lemmas -/

/-- The JS single-space split always produces at least one piece. -/
theorem splitOnSpace_ne_nil (l : List Char) : splitOnSpace l ≠ [] := by
  cases l with
  | nil => simp [splitOnSpace]
  | cons c rest =>
    simp only [splitOnSpace]
    split <;> simp

/-- No piece of the single-space split contains a space. -/
theorem mem_splitOnSpace_no_space (l : List Char) :
    ∀ p ∈ splitOnSpace l, ' ' ∉ p := by
  induction l with
  | nil =>
    intro p hp
    simp only [splitOnSpace, List.mem_singleton] at hp
    simp [hp]
  | cons c rest ih =>
    intro p hp
    simp only [splitOnSpace] at hp
    by_cases hc : c = ' '
    · rw [if_pos hc] at hp
      rcases List.mem_cons.mp hp with h | h
      · simp [h]
      · exact ih p h
    · rw [if_neg hc] at hp
      rcases List.mem_cons.mp hp with h | h
      · subst h
        intro hmem
        rcases List.mem_cons.mp hmem with h1 | h1
        · exact hc h1.symm
        · cases hr : splitOnSpace rest with
          | nil => exact absurd hr (splitOnSpace_ne_nil rest)
          | cons q qs =>
            rw [hr] at h1
            simp only [List.headD_cons] at h1
            exact ih q (by rw [hr]; exact List.mem_cons_self q qs) h1
      · cases hr : splitOnSpace rest with
        | nil => exact absurd hr (splitOnSpace_ne_nil rest)
        | cons q qs =>
          rw [hr] at h
          simp only [List.tail_cons] at h
          exact ih p (by rw [hr]; exact List.mem_cons_of_mem q h)

/-- Trimming only removes characters. -/
theorem mem_trimChars {x : Char} {l : List Char} (h : x ∈ trimChars l) : x ∈ l := by
  unfold trimChars at h
  rw [List.mem_reverse] at h
  have h1 := (List.dropWhile_sublist _).subset h
  rw [List.mem_reverse] at h1
  exact (List.dropWhile_sublist _).subset h1

/-- Trimming an all-whitespace character list yields the empty list. -/
theorem trimChars_eq_nil {l : List Char}
    (h : ∀ c ∈ l, c.isWhitespace = true) : trimChars l = [] := by
  unfold trimChars
  rw [List.dropWhile_eq_nil_iff.mpr h]
  simp

/-- The extracted bearer token never contains a space character: it is a
trimmed piece of the single-space split of the header value. -/
theorem space_not_mem_extractBearerChars (auth : String) :
    ' ' ∉ extractBearerChars auth := by
  unfold extractBearerChars
  split
  · intro hmem
    have hx := mem_trimChars hmem
    unfold authToken at hx
    cases hd : (splitOnSpace auth.data).drop 1 with
    | nil => rw [hd] at hx; simp at hx
    | cons q qs =>
      rw [hd] at hx
      simp only [List.headD_cons] at hx
      have hq : q ∈ splitOnSpace auth.data := by
        refine List.drop_subset 1 _ ?_
        rw [hd]
        exact List.mem_cons_self q qs
      exact mem_splitOnSpace_no_space _ q hq hx
  · simp

/-- The resolved header value `"Bearer " ++ token` always contains a space,
so it never equals an extracted (space-free) bearer token. -/
theorem resolved_value_ne_extractBearer (t auth : String) :
    "Bearer " ++ t ≠ extractBearer auth := by
  intro heq
  have hdata : ("Bearer " ++ t).data = (extractBearer auth).data :=
    congrArg String.data heq
  have happ : ("Bearer " ++ t).data = "Bearer ".data ++ t.data := rfl
  have hmk : (extractBearer auth).data = extractBearerChars auth := rfl
  rw [happ, hmk] at hdata
  have hsp : ' ' ∈ "Bearer ".data ++ t.data :=
    List.mem_append_left _ (by decide)
  rw [hdata] at hsp
  exact space_not_mem_extractBearerChars auth hsp

/-- A guard set extended with a transport contains it. -/
theorem listHas_append_self (l : List Nat) (t : Nat) :
    listHas (l ++ [t]) t = true := by
  induction l with
  | nil => simp [listHas]
  | cons x rest ih => by_cases hx : x = t <;> simp [listHas, hx, ih]

/-- Occurrence counting distributes over append. -/
theorem countOcc_append (l₁ l₂ : List Nat) (t : Nat) :
    countOcc (l₁ ++ l₂) t = countOcc l₁ t + countOcc l₂ t := by
  induction l₁ with
  | nil => simp [countOcc]
  | cons x rest ih => simp [countOcc, ih]; omega

/-- Deleting a key removes it from the registry. -/
theorem mapGet_mapDelete_self (m : List (String × Nat)) (key : String) :
    mapGet (mapDelete m key) key = none := by
  induction m with
  | nil => simp [mapDelete, mapGet]
  | cons p rest ih =>
    obtain ⟨k, v⟩ := p
    by_cases hk : k = key <;> simp [mapDelete, mapGet, hk, ih]

/-- Deleting one key leaves every other key's entry unchanged. -/
theorem mapGet_mapDelete_ne (m : List (String × Nat)) {k key : String}
    (h : k ≠ key) : mapGet (mapDelete m key) k = mapGet m k := by
  induction m with
  | nil => simp [mapDelete, mapGet]
  | cons p rest ih =>
    obtain ⟨k1, v1⟩ := p
    by_cases hk1 : k1 = key
    · subst hk1
      simp [mapDelete, mapGet, ih, Ne.symm h]
    · by_cases hk2 : k1 = k <;> simp [mapDelete, mapGet, hk1, hk2, h, ih]

/-- The connect guard never touches the transport registry. -/
theorem ensureConnected_transports (st : McpState) (t : Nat) :
    (ensureConnected st t).transports = st.transports := by
  unfold ensureConnected
  split <;> rfl

/-! ### Concrete fixtures used by counterexamples and witnesses -/

/-- Configuration with auth enabled, resource-server tokens required and
direct bearer pass-through disallowed. -/
def cfgRequireRS : UnifiedConfig :=
  ⟨true, true, false, "oauth", none, "openid email",
    "https://provider.example/auth", "https://provider.example/token",
    3000, "production", "2025-03-26"⟩

/-- Request URL `http://localhost:3000`. -/
def urlLocal : UrlParts := ⟨"http:", "localhost", "3000"⟩

/-- Request carrying `Authorization: Bearer tok` and session id `sess`. -/
def reqBearerTok : GateRequest := ⟨some "Bearer tok", some "sess", urlLocal⟩

/-- Empty route state. -/
def mcpStateEmpty : McpState := ⟨[], [], [], [], 0⟩

/-- Route state with one registered, connected session. -/
def mcpStateOne : McpState := ⟨[("s1", 3)], [3], [3], [], 4⟩

/-- Route state with two registered, connected sessions. -/
def mcpStateTwo : McpState := ⟨[("s1", 3), ("s2", 4)], [3, 4], [3, 4], [], 5⟩

/-! ### Claim theorems -/

/-- C1 counterexample: with auth enabled, resource-server tokens required
and direct bearer pass-through disallowed, a credential-store error is NOT
handled like the not-found case.  On the same request the not-found branch
answers with the 401 challenge, while the store-error branch falls through
to the next handler — so the claimed "same 401 Challenge as the not-found
branch" fails. -/
theorem store_error_differs_from_not_found_cex :
    mcpSecurityMiddleware cfgRequireRS reqBearerTok
        (fun _ => StoreResult.err "store unavailable") "FRESH" =
      GateResult.next none ∧
    mcpSecurityMiddleware cfgRequireRS reqBearerTok
        (fun _ => StoreResult.ok none) "FRESH" =
      GateResult.challengeResp 401 "sess" "http://localhost:3000" ∧
    GateResult.next (none (α := AuthContext)) ≠
      GateResult.challengeResp 401 "sess" "http://localhost:3000" := by
  decide

/-- C1 (amended): if the credential-store lookup throws, the error is
caught at the gate (logged — logging is an external side effect not
modelled) and never propagated to the client; the request falls through to
the next handler with no auth context attached.  Unlike the not-found
branch, no 401 challenge is issued, even when configuration requires
resource-server tokens and disallows direct bearer pass-through. -/
theorem store_error_logged_and_falls_through
    (config : UnifiedConfig) (req : GateRequest) (store : String → StoreResult)
    (freshSid a msg : String)
    (hEnabled : config.AUTH_ENABLED = true)
    (hAuth : req.authorization = some a)
    (hBearer : extractBearer a ≠ "")
    (hStore : store (extractBearer a) = StoreResult.err msg) :
    mcpSecurityMiddleware config req store freshSid = GateResult.next none := by
  have ha : a ≠ "" := by
    intro h
    subst h
    exact hBearer (by decide)
  have htrue : strTruthy req.authorization = true := by
    rw [hAuth]
    simp [strTruthy, ha]
  unfold mcpSecurityMiddleware
  rw [hEnabled, htrue, hAuth]
  simp only [if_true, Bool.true_eq_false, if_false, Option.getD_some]
  rw [if_pos hBearer, hStore]

/-- C1 amended-claim witness at a concrete erroring store. -/
theorem store_error_logged_and_falls_through_witness :
    mcpSecurityMiddleware cfgRequireRS reqBearerTok
        (fun _ => StoreResult.err "store unavailable") "FRESH" =
      GateResult.next none :=
  store_error_logged_and_falls_through cfgRequireRS reqBearerTok
    (fun _ => StoreResult.err "store unavailable") "FRESH" "Bearer tok"
    "store unavailable" rfl rfl (by decide) rfl

/-- C2: whenever the bearer token resolves to a provider credential, the
attached auth context's `resolvedHeaders.authorization` is exactly
`"Bearer " ++ provider.access_token`, and it can never equal the original
resource-server token (the extracted bearer contains no space, while the
resolved value does). -/
theorem resolved_header_is_provider_bearer
    (config : UnifiedConfig) (req : GateRequest) (store : String → StoreResult)
    (freshSid a : String) (rec : TokenRecord) (p : ProviderCredential)
    (hEnabled : config.AUTH_ENABLED = true)
    (hAuth : req.authorization = some a)
    (hBearer : extractBearer a ≠ "")
    (hStore : store (extractBearer a) = StoreResult.ok (some rec))
    (hProv : rec.provider = some p) :
    mcpSecurityMiddleware config req store freshSid =
      GateResult.next (some
        { strategy := config.AUTH_STRATEGY
          authHeaders := { authorization := a }
          resolvedHeaders := { authorization := "Bearer " ++ p.access_token }
          providerToken := p.access_token
          provider := p
          rsToken := extractBearer a }) ∧
    "Bearer " ++ p.access_token ≠ extractBearer a := by
  refine ⟨?_, resolved_value_ne_extractBearer p.access_token a⟩
  have ha : a ≠ "" := by
    intro h
    subst h
    exact hBearer (by decide)
  have htrue : strTruthy req.authorization = true := by
    rw [hAuth]
    simp [strTruthy, ha]
  unfold mcpSecurityMiddleware
  rw [hEnabled, htrue, hAuth]
  simp only [if_true, Bool.true_eq_false, if_false, Option.getD_some]
  rw [if_pos hBearer, hStore]
  simp [hProv]

/-- C2 witness at a concrete store holding a provider credential. -/
theorem resolved_header_is_provider_bearer_witness :
    mcpSecurityMiddleware cfgRequireRS reqBearerTok
        (fun _ => StoreResult.ok (some ⟨some ⟨"PTOK", none, none, none⟩⟩)) "FRESH" =
      GateResult.next (some
        { strategy := cfgRequireRS.AUTH_STRATEGY
          authHeaders := { authorization := "Bearer tok" }
          resolvedHeaders := { authorization := "Bearer " ++ "PTOK" }
          providerToken := "PTOK"
          provider := ⟨"PTOK", none, none, none⟩
          rsToken := extractBearer "Bearer tok" }) ∧
    "Bearer " ++ "PTOK" ≠ extractBearer "Bearer tok" :=
  resolved_header_is_provider_bearer cfgRequireRS reqBearerTok
    (fun _ => StoreResult.ok (some ⟨some ⟨"PTOK", none, none, none⟩⟩)) "FRESH"
    "Bearer tok" ⟨some ⟨"PTOK", none, none, none⟩⟩ ⟨"PTOK", none, none, none⟩
    rfl rfl (by decide) rfl rfl

/-- C3: with auth enabled and no `Authorization` header (the gate's notion
of carrying no bearer credential, per spec section 4.2 step 4), the
response is the 401 challenge whose `Mcp-Session-Id` header echoes a
supplied non-empty session id and is the freshly generated id when the
header is absent (an empty header value is treated as absent). -/
theorem no_auth_header_gets_challenge_with_session
    (config : UnifiedConfig) (req : GateRequest) (store : String → StoreResult)
    (freshSid : String)
    (hEnabled : config.AUTH_ENABLED = true)
    (hAuth : req.authorization = none) :
    (∀ s, req.mcpSessionId = some s → s ≠ "" →
      mcpSecurityMiddleware config req store freshSid =
        GateResult.challengeResp 401 s (challengeOrigin config req)) ∧
    (req.mcpSessionId = none →
      mcpSecurityMiddleware config req store freshSid =
        GateResult.challengeResp 401 freshSid (challengeOrigin config req)) ∧
    (req.mcpSessionId = some "" →
      mcpSecurityMiddleware config req store freshSid =
        GateResult.challengeResp 401 freshSid (challengeOrigin config req)) := by
  refine ⟨?_, ?_, ?_⟩
  · intro s hs hne
    unfold mcpSecurityMiddleware
    rw [hEnabled, hAuth, hs]
    simp [strTruthy, buildUnauthorizedChallenge, hne]
  · intro hs
    unfold mcpSecurityMiddleware
    rw [hEnabled, hAuth, hs]
    simp [strTruthy, buildUnauthorizedChallenge]
  · intro hs
    unfold mcpSecurityMiddleware
    rw [hEnabled, hAuth, hs]
    simp [strTruthy, buildUnauthorizedChallenge]

/-- C3 witness: echoed supplied id and freshly minted id. -/
theorem no_auth_header_gets_challenge_with_session_witness :
    mcpSecurityMiddleware cfgRequireRS ⟨none, some "sess", urlLocal⟩
        (fun _ => StoreResult.ok none) "FRESH" =
      GateResult.challengeResp 401 "sess"
        (challengeOrigin cfgRequireRS ⟨none, some "sess", urlLocal⟩) ∧
    mcpSecurityMiddleware cfgRequireRS ⟨none, none, urlLocal⟩
        (fun _ => StoreResult.ok none) "FRESH" =
      GateResult.challengeResp 401 "FRESH"
        (challengeOrigin cfgRequireRS ⟨none, none, urlLocal⟩) :=
  ⟨(no_auth_header_gets_challenge_with_session cfgRequireRS
      ⟨none, some "sess", urlLocal⟩ (fun _ => StoreResult.ok none) "FRESH"
      rfl rfl).1 "sess" rfl (by decide),
   (no_auth_header_gets_challenge_with_session cfgRequireRS
      ⟨none, none, urlLocal⟩ (fun _ => StoreResult.ok none) "FRESH"
      rfl rfl).2.1 rfl⟩

/-- C9: with auth enabled, a present `Authorization` header (truthy, i.e.
non-empty — the gate's `if (!auth)` falsy test treats a present
empty-string header like an absent one and challenges it) whose scheme is
not (case-insensitively) `Bearer`, or whose token part is empty or
whitespace-only, produces neither a challenge nor an auth context: the
request falls through unauthenticated, for every configuration, including
one requiring resource-server tokens and disallowing direct bearer. -/
theorem malformed_bearer_passes_through
    (config : UnifiedConfig) (req : GateRequest) (store : String → StoreResult)
    (freshSid a : String)
    (hEnabled : config.AUTH_ENABLED = true)
    (hAuth : req.authorization = some a)
    (hPresent : a ≠ "")
    (hMalformed : (authScheme a).map Char.toLower ≠ "bearer".data ∨
      ∀ c ∈ authToken a, c.isWhitespace = true) :
    mcpSecurityMiddleware config req store freshSid = GateResult.next none := by
  have hchars : extractBearerChars a = [] := by
    unfold extractBearerChars
    rcases hMalformed with h | h
    · rw [if_neg]
      rintro ⟨_, h2⟩
      exact h h2
    · split
      · exact trimChars_eq_nil h
      · rfl
  have hb : extractBearer a = "" := by
    unfold extractBearer
    rw [hchars]
  have htrue : strTruthy req.authorization = true := by
    rw [hAuth]
    simp [strTruthy, hPresent]
  unfold mcpSecurityMiddleware
  rw [hEnabled, htrue, hAuth]
  simp [hb]

/-- C9 witness: a `Basic` credential passes through even under the
strictest configuration. -/
theorem malformed_bearer_passes_through_witness :
    mcpSecurityMiddleware cfgRequireRS ⟨some "Basic Zm9v", some "sess", urlLocal⟩
        (fun _ => StoreResult.ok none) "FRESH" = GateResult.next none :=
  malformed_bearer_passes_through cfgRequireRS
    ⟨some "Basic Zm9v", some "sess", urlLocal⟩ (fun _ => StoreResult.ok none)
    "FRESH" "Basic Zm9v" rfl rfl (by decide) (Or.inl (by decide))

/-- C4 counterexample: the POST handler rejects neither a missing session
id nor an unresolvable one — both are dispatched to a freshly created
transport — so the claim's "any HTTP method on the MCP route tree" fails
for POST. -/
theorem post_without_session_not_rejected_cex :
    (handlePost mcpStateEmpty none false "FRESH").1 = McpResponse.dispatched 0 ∧
    (handlePost mcpStateEmpty none false "FRESH").1 ≠
      McpResponse.jsonError 405 (-32000) "Method not allowed - no session" ∧
    (handlePost mcpStateOne (some "unknown") false "FRESH").1 =
      McpResponse.dispatched 4 ∧
    (handlePost mcpStateOne (some "unknown") false "FRESH").1 ≠
      McpResponse.textError 404 "Invalid session" := by
  decide

/-- C4 (amended): for GET and DELETE requests on the MCP route, a missing
(or empty) session id header yields the 405-equivalent JSON-RPC error with
code -32000, and a supplied session id that does not resolve to a
registered transport yields the 404-equivalent `Invalid session`; the POST
handler instead dispatches such requests to a freshly created transport. -/
theorem get_delete_session_errors (st : McpState) (hdr : Option String) :
    (strTruthy hdr = false →
      (handleGet st hdr).1 =
        McpResponse.jsonError 405 (-32000) "Method not allowed - no session" ∧
      (handleDelete st hdr).1 =
        McpResponse.jsonError 405 (-32000) "Method not allowed - no session") ∧
    (∀ s, hdr = some s → s ≠ "" → mapGet st.transports s = none →
      (handleGet st hdr).1 = McpResponse.textError 404 "Invalid session" ∧
      (handleDelete st hdr).1 = McpResponse.textError 404 "Invalid session") := by
  constructor
  · intro h
    simp [handleGet, handleDelete, h]
  · intro s hs hne hget
    subst hs
    have ht : strTruthy (some s) = true := by simp [strTruthy, hne]
    simp [handleGet, handleDelete, ht, hget]

/-- C4 amended-claim witness at concrete states and headers. -/
theorem get_delete_session_errors_witness :
    ((handleGet mcpStateOne none).1 =
        McpResponse.jsonError 405 (-32000) "Method not allowed - no session" ∧
      (handleDelete mcpStateOne none).1 =
        McpResponse.jsonError 405 (-32000) "Method not allowed - no session") ∧
    ((handleGet mcpStateOne (some "zz")).1 =
        McpResponse.textError 404 "Invalid session" ∧
      (handleDelete mcpStateOne (some "zz")).1 =
        McpResponse.textError 404 "Invalid session") :=
  ⟨(get_delete_session_errors mcpStateOne none).1 (by decide),
   (get_delete_session_errors mcpStateOne (some "zz")).2 "zz" rfl (by decide)
     (by decide)⟩

/-- C5: grant dispatch of `buildTokenInput` — `refresh_token` with an
absent/empty refresh token gives `missing_refresh_token` and otherwise a
refresh grant; `authorization_code` with an absent/empty code or verifier
gives `missing_code_or_verifier` and otherwise an authorization-code
grant; any other (or absent) `grant_type` gives
`unsupported_grant_type`. -/
theorem buildTokenInput_grant_dispatch (form : List (String × String)) :
    (spGet form "grant_type" = some "refresh_token" →
      isFalsy (spGet form "refresh_token") = true →
      buildTokenInput form = TokenInput.errorResult "missing_refresh_token") ∧
    (∀ rt, spGet form "grant_type" = some "refresh_token" →
      spGet form "refresh_token" = some rt → rt ≠ "" →
      buildTokenInput form = TokenInput.refreshTokenGrant rt) ∧
    (spGet form "grant_type" = some "authorization_code" →
      (isFalsy (spGet form "code") = true ∨
        isFalsy (spGet form "code_verifier") = true) →
      buildTokenInput form = TokenInput.errorResult "missing_code_or_verifier") ∧
    (∀ code cv, spGet form "grant_type" = some "authorization_code" →
      spGet form "code" = some code → spGet form "code_verifier" = some cv →
      code ≠ "" → cv ≠ "" →
      buildTokenInput form = TokenInput.authorizationCodeGrant code cv) ∧
    (spGet form "grant_type" ≠ some "refresh_token" →
      spGet form "grant_type" ≠ some "authorization_code" →
      buildTokenInput form = TokenInput.errorResult "unsupported_grant_type") := by
  refine ⟨?_, ?_, ?_, ?_, ?_⟩
  · intro hg hf
    simp [buildTokenInput, hg, hf]
  · intro rt hg hr hne
    simp [buildTokenInput, hg, hr, isFalsy, hne]
  · intro hg hf
    rcases hf with hf | hf <;> simp [buildTokenInput, hg, hf]
  · intro code cv hg hc hv hcne hvne
    simp [buildTokenInput, hg, hc, hv, isFalsy, hcne, hvne]
  · intro h1 h2
    simp [buildTokenInput, h1, h2]

/-- C5 witness: the five dispatch outcomes at concrete bodies. -/
theorem buildTokenInput_grant_dispatch_witness :
    buildTokenInput [("grant_type", "refresh_token")] =
      TokenInput.errorResult "missing_refresh_token" ∧
    buildTokenInput [("grant_type", "refresh_token"), ("refresh_token", "r1")] =
      TokenInput.refreshTokenGrant "r1" ∧
    buildTokenInput [("grant_type", "authorization_code"), ("code", "c1")] =
      TokenInput.errorResult "missing_code_or_verifier" ∧
    buildTokenInput
        [("grant_type", "authorization_code"), ("code", "c1"),
          ("code_verifier", "v1")] =
      TokenInput.authorizationCodeGrant "c1" "v1" ∧
    buildTokenInput [("grant_type", "client_credentials")] =
      TokenInput.errorResult "unsupported_grant_type" :=
  ⟨(buildTokenInput_grant_dispatch [("grant_type", "refresh_token")]).1
      (by decide) (by decide),
   (buildTokenInput_grant_dispatch
      [("grant_type", "refresh_token"), ("refresh_token", "r1")]).2.1 "r1"
      (by decide) (by decide) (by decide),
   (buildTokenInput_grant_dispatch
      [("grant_type", "authorization_code"), ("code", "c1")]).2.2.1
      (by decide) (Or.inr (by decide)),
   (buildTokenInput_grant_dispatch
      [("grant_type", "authorization_code"), ("code", "c1"),
        ("code_verifier", "v1")]).2.2.2.1 "c1" "v1"
      (by decide) (by decide) (by decide) (by decide) (by decide),
   (buildTokenInput_grant_dispatch [("grant_type", "client_credentials")]).2.2.2.2
      (by decide) (by decide)⟩

/-- C6: every authorization-server metadata document the system produces —
through `createDiscoveryHandlers` with any strategy, and through the
`buildAuthApp` discovery route — advertises the resolved proxy base URL
with paths `/authorize`, `/token` and `/revoke`, and is independent of the
configured upstream provider authorize/token URLs (so it can never
advertise them). -/
theorem authorization_metadata_advertises_proxy_endpoints
    (config : UnifiedConfig) (strategy : DiscoveryStrategy)
    (requestUrl : UrlParts) :
    ((authorizationMetadata config strategy requestUrl).authorization_endpoint =
        strategy.resolveAuthBaseUrl requestUrl config ++ "/authorize" ∧
      (authorizationMetadata config strategy requestUrl).token_endpoint =
        strategy.resolveAuthBaseUrl requestUrl config ++ "/token" ∧
      (authorizationMetadata config strategy requestUrl).revocation_endpoint =
        strategy.resolveAuthBaseUrl requestUrl config ++ "/revoke") ∧
    ((authAppMetadata config requestUrl).authorization_endpoint =
        authAppBase config requestUrl ++ "/authorize" ∧
      (authAppMetadata config requestUrl).token_endpoint =
        authAppBase config requestUrl ++ "/token" ∧
      (authAppMetadata config requestUrl).revocation_endpoint =
        authAppBase config requestUrl ++ "/revoke") ∧
    (∀ p q,
      authorizationMetadata
          { config with OAUTH_AUTHORIZATION_URL := p, OAUTH_TOKEN_URL := q }
          workerDiscoveryStrategy requestUrl =
        authorizationMetadata config workerDiscoveryStrategy requestUrl ∧
      authorizationMetadata
          { config with OAUTH_AUTHORIZATION_URL := p, OAUTH_TOKEN_URL := q }
          nodeDiscoveryStrategy requestUrl =
        authorizationMetadata config nodeDiscoveryStrategy requestUrl ∧
      authAppMetadata
          { config with OAUTH_AUTHORIZATION_URL := p, OAUTH_TOKEN_URL := q }
          requestUrl =
        authAppMetadata config requestUrl) :=
  ⟨⟨rfl, rfl, rfl⟩, ⟨rfl, rfl, rfl⟩, fun _ _ => ⟨rfl, rfl, rfl⟩⟩

/-- C7: two sequential calls of the connect guard on the same transport
instance perform exactly one underlying `server.connect`; the second call
is a no-op on the state. -/
theorem ensureConnected_twice_connects_once (st : McpState) (t : Nat)
    (hguard : listHas st.connected t = false)
    (htrace : countOcc st.connects t = 0) :
    ensureConnected (ensureConnected st t) t = ensureConnected st t ∧
    countOcc (ensureConnected st t).connects t = 1 := by
  have h1 : ensureConnected st t =
      { st with
          connects := st.connects ++ [t]
          connected := st.connected ++ [t] } := by
    unfold ensureConnected
    rw [hguard]
    simp
  constructor
  · rw [h1]
    unfold ensureConnected
    simp [listHas_append_self]
  · rw [h1]
    simp [countOcc_append, countOcc, htrace]

/-- C7 witness on the empty state. -/
theorem ensureConnected_twice_connects_once_witness :
    ensureConnected (ensureConnected mcpStateEmpty 0) 0 =
      ensureConnected mcpStateEmpty 0 ∧
    countOcc (ensureConnected mcpStateEmpty 0).connects 0 = 1 :=
  ensureConnected_twice_connects_once mcpStateEmpty 0 (by decide) (by decide)

/-- C8: a DELETE on a registered session id dispatches the request to its
transport and removes the id from the registry, so a later GET with the
same id answers `Invalid session` (404), while a GET before the deletion
dispatched to the transport; every other session's registry entry is
untouched. -/
theorem delete_session_lifecycle (st : McpState) (sid : String) (t : Nat)
    (hne : sid ≠ "")
    (hreg : mapGet st.transports sid = some t) :
    (handleDelete st (some sid)).1 = McpResponse.dispatched t ∧
    mapGet (handleDelete st (some sid)).2.transports sid = none ∧
    (handleGet (handleDelete st (some sid)).2 (some sid)).1 =
      McpResponse.textError 404 "Invalid session" ∧
    (handleGet st (some sid)).1 = McpResponse.dispatched t ∧
    ∀ sid2, sid2 ≠ sid →
      mapGet (handleDelete st (some sid)).2.transports sid2 =
        mapGet st.transports sid2 := by
  have ht : strTruthy (some sid) = true := by simp [strTruthy, hne]
  have hD : handleDelete st (some sid) =
      (McpResponse.dispatched t,
        { ensureConnected st t with
            transports := mapDelete (ensureConnected st t).transports sid
            closed := (ensureConnected st t).closed ++ [t] }) := by
    unfold handleDelete
    rw [ht]
    simp [hreg]
  have hT : (handleDelete st (some sid)).2.transports =
      mapDelete st.transports sid := by
    rw [hD]
    simp [ensureConnected_transports]
  refine ⟨by rw [hD], ?_, ?_, ?_, ?_⟩
  · rw [hT]
    exact mapGet_mapDelete_self _ _
  · unfold handleGet
    rw [ht]
    simp only [Option.getD_some, if_neg]
    rw [hT, mapGet_mapDelete_self]
    simp
  · unfold handleGet
    rw [ht]
    simp [hreg]
  · intro sid2 h2
    rw [hT]
    exact mapGet_mapDelete_ne _ h2

/-- C8 witness on a two-session state. -/
theorem delete_session_lifecycle_witness :
    (handleDelete mcpStateTwo (some "s1")).1 = McpResponse.dispatched 3 ∧
    mapGet (handleDelete mcpStateTwo (some "s1")).2.transports "s1" = none ∧
    (handleGet (handleDelete mcpStateTwo (some "s1")).2 (some "s1")).1 =
      McpResponse.textError 404 "Invalid session" ∧
    (handleGet mcpStateTwo (some "s1")).1 = McpResponse.dispatched 3 ∧
    mapGet (handleDelete mcpStateTwo (some "s1")).2.transports "s2" =
      mapGet mcpStateTwo.transports "s2" := by
  obtain ⟨h1, h2, h3, h4, h5⟩ :=
    delete_session_lifecycle mcpStateTwo "s1" 3 (by decide) (by decide)
  exact ⟨h1, h2, h3, h4, h5 "s2" (by decide)⟩

/-- C10: a token-endpoint body that is neither consumed as form data (its
content type is not form-urlencoded) nor parseable as JSON degrades to the
empty parameter set — the parsing pipeline is total, so no exception
crosses it — whose `grant_type` is absent, and `buildTokenInput` then
returns the structured `unsupported_grant_type` error. -/
theorem token_parse_never_throws_degrades
    (parseForm : String → List (String × String))
    (jsonParse : String → Option (List (String × String)))
    (contentType : Option String) (body : String)
    (hct : strIncludes (contentType.getD "")
      "application/x-www-form-urlencoded" = false)
    (hjson : jsonParse body = none) :
    parseTokenInput parseForm jsonParse contentType body = [] ∧
    spGet (parseTokenInput parseForm jsonParse contentType body)
      "grant_type" = none ∧
    buildTokenInput (parseTokenInput parseForm jsonParse contentType body) =
      TokenInput.errorResult "unsupported_grant_type" := by
  have h : parseTokenInput parseForm jsonParse contentType body = [] := by
    unfold parseTokenInput
    rw [hct, hjson]
    simp
  refine ⟨h, ?_, ?_⟩ <;> rw [h] <;> rfl

/-- C10 witness at a concrete JSON-less request. -/
theorem token_parse_never_throws_degrades_witness :
    parseTokenInput (fun _ => []) (fun _ => none) none "not json" = [] ∧
    buildTokenInput (parseTokenInput (fun _ => []) (fun _ => none) none
        "not json") =
      TokenInput.errorResult "unsupported_grant_type" :=
  ⟨(token_parse_never_throws_degrades (fun _ => []) (fun _ => none) none
      "not json" (by decide) rfl).1,
   (token_parse_never_throws_degrades (fun _ => []) (fun _ => none) none
      "not json" (by decide) rfl).2.2⟩

end GcalMcp
